import Mathlib

/-!
# Pixlated: the noise engine and its callers

A shallow embedding of `src/utils/noise.js` (`applyNoise`, `clampIntensity`),
of `PixlatedImage._validateDimension` / `drawGrainyImage` (`src/pixlated.js`) and of
`PixlatedBg.updateCanvasSize` / `drawGrainyBackground` (`src/pixlated-bg.js`).

Conventions of the embedding:

* A JavaScript number is a `JSNum`: `NaN`, the two infinities, or a finite value.  Finite
  values are exact rationals: arithmetic on them is exact (no binary64 rounding, no
  overflow) and the two zeros are identified.
* `Math.random()` is an explicit stream `rand : Nat → ℚ` together with the number of draws
  already made; a function that draws returns the new count.
* The `data` of an `ImageData` is a `Uint8ClampedArray`: a list of bytes, where a store
  converts the number with `ToUint8Clamp` and an out-of-range index is ignored.
-/

namespace Pixlated

/-! ## JavaScript numbers and values -/

/-- A JavaScript number. -/
inductive JSNum where
  | nan : JSNum
  | negInf : JSNum
  | posInf : JSNum
  | fin (q : ℚ) : JSNum
  deriving DecidableEq

/-- A JavaScript value, as far as the callers of the noise utilities pass one. -/
inductive JSVal where
  | null : JSVal
  | undefined : JSVal
  | num (n : JSNum) : JSVal
  deriving DecidableEq

namespace JSNum

/-- The global `isNaN` on a number. -/
def isNaN : JSNum → Bool
  | nan => true
  | _ => false

/-- Unary minus. -/
def neg : JSNum → JSNum
  | nan => nan
  | negInf => posInf
  | posInf => negInf
  | fin q => fin (-q)

/-- The operator `+` on numbers. -/
def add : JSNum → JSNum → JSNum
  | nan, _ => nan
  | _, nan => nan
  | posInf, negInf => nan
  | negInf, posInf => nan
  | posInf, _ => posInf
  | _, posInf => posInf
  | negInf, _ => negInf
  | _, negInf => negInf
  | fin a, fin b => fin (a + b)

/-- The operator `-` on numbers. -/
def sub (a b : JSNum) : JSNum := add a (neg b)

/-- An infinity times a finite factor: the sign follows the factor, zero gives `NaN`. -/
def infTimes (positive : Bool) (q : ℚ) : JSNum :=
  if q = 0 then nan
  else if (0 < q) = positive then posInf
  else negInf

/-- The operator `*` on numbers. -/
def mul : JSNum → JSNum → JSNum
  | nan, _ => nan
  | _, nan => nan
  | posInf, posInf => posInf
  | posInf, negInf => negInf
  | negInf, posInf => negInf
  | negInf, negInf => posInf
  | posInf, fin q => infTimes true q
  | negInf, fin q => infTimes false q
  | fin q, posInf => infTimes true q
  | fin q, negInf => infTimes false q
  | fin a, fin b => fin (a * b)

/-- The operator `<` on numbers (false as soon as an operand is `NaN`). -/
def lt : JSNum → JSNum → Bool
  | nan, _ => false
  | _, nan => false
  | posInf, _ => false
  | _, negInf => false
  | negInf, _ => true
  | _, posInf => true
  | fin a, fin b => decide (a < b)

/-- The operator `>` on numbers. -/
def gt (a b : JSNum) : Bool := lt b a

/-- Truthiness of a number: `NaN` and zero are falsy. -/
def truthy : JSNum → Bool
  | nan => false
  | fin q => decide (q ≠ 0)
  | _ => true

end JSNum

namespace Math

/-- The two-argument `Math.min`. -/
def min : JSNum → JSNum → JSNum
  | .nan, _ => .nan
  | _, .nan => .nan
  | .negInf, _ => .negInf
  | _, .negInf => .negInf
  | .posInf, b => b
  | a, .posInf => a
  | .fin a, .fin b => .fin (Min.min a b)

/-- The two-argument `Math.max`. -/
def max : JSNum → JSNum → JSNum
  | .nan, _ => .nan
  | _, .nan => .nan
  | .posInf, _ => .posInf
  | _, .posInf => .posInf
  | .negInf, b => b
  | a, .negInf => a
  | .fin a, .fin b => .fin (Max.max a b)

end Math

/-- The abstract operation `ToNumber` on the values of `JSVal`. -/
def toNumber : JSVal → JSNum
  | .null => .fin 0
  | .undefined => .nan
  | .num n => n

/-! ## The pixel buffer -/

/-- The abstract operation `ToUint8Clamp`, which converts a number stored into a
`Uint8ClampedArray`: `NaN` becomes 0, the value is clamped to `[0, 255]` and rounded to
the nearest integer, a tie going to the even neighbour. -/
def toUint8Clamp : JSNum → Nat
  | .nan => 0
  | .negInf => 0
  | .posInf => 255
  | .fin q =>
    let clamped := min (max q 0) 255
    let f := ⌊clamped⌋
    if clamped < f + 1 / 2 then f.toNat
    else if clamped > f + 1 / 2 then (f + 1).toNat
    else if f % 2 = 0 then f.toNat
    else (f + 1).toNat

/-- An `ImageData`: its size in pixels and the bytes of its `data`, four per pixel
(red, green, blue, alpha), row after row. -/
structure ImageData where
  width : Nat
  height : Nat
  data : List Nat

/-- The read `data[i]`, used as a number: an index past the end reads `undefined`, which
an arithmetic operator turns into `NaN`. -/
def readByte (data : List Nat) (i : Nat) : JSNum :=
  match data[i]? with
  | some b => .fin b
  | none => .nan

/-- The store `data[i] = v`: the number is converted with `toUint8Clamp`; a store past
the end is ignored. -/
def writeByte (data : List Nat) (i : Nat) (v : JSNum) : List Nat :=
  data.set i (toUint8Clamp v)

/-! ## `src/utils/noise.js` -/

/-- The body of the loop of `applyNoise` from index `i` on, `k` draws having been made:
one draw per iteration, added to the three colour bytes at `i`, `i + 1`, `i + 2`. -/
def applyNoiseLoop (rand : Nat → ℚ) (clampedIntensity : JSNum) (i : Nat) (data : List Nat)
    (k : Nat) : List Nat × Nat :=
  if i < data.length then
    let noise := (((JSNum.fin (rand k)).sub (.fin (1 / 2))).mul (.fin 255)).mul clampedIntensity
    let data1 := writeByte data i
      (Math.max (.fin 0) (Math.min (.fin 255) ((readByte data i).add noise)))
    let data2 := writeByte data1 (i + 1)
      (Math.max (.fin 0) (Math.min (.fin 255) ((readByte data1 (i + 1)).add noise)))
    let data3 := writeByte data2 (i + 2)
      (Math.max (.fin 0) (Math.min (.fin 255) ((readByte data2 (i + 2)).add noise)))
    applyNoiseLoop rand clampedIntensity (i + 4) data3 (k + 1)
  else (data, k)
termination_by data.length - i
decreasing_by
  simp only [writeByte, List.length_set]
  omega

/-- The function `applyNoise(imageData, intensity)`: the image with its `data` rewritten,
and the number of draws made so far. -/
def applyNoise (rand : Nat → ℚ) (k : Nat) (imageData : ImageData) (intensity : JSNum) :
    ImageData × Nat :=
  let clampedIntensity := Math.max (.fin 0) (Math.min (.fin 1) intensity)
  let r := applyNoiseLoop rand clampedIntensity 0 imageData.data k
  ({ imageData with data := r.1 }, r.2)

/-- The function `clampIntensity(value, defaultValue = 0.1)`.  An argument that is
`undefined` (or not passed at all) takes the parameter's default `0.1`. -/
def clampIntensity (value : JSVal) (defaultValue : JSVal) : JSVal :=
  let defaultValue := if defaultValue = .undefined then .num (.fin (1 / 10)) else defaultValue
  if value = .null || value = .undefined || (toNumber value).isNaN then
    defaultValue
  else if (toNumber value).lt (.fin 0) then .num (.fin 0)
  else if (toNumber value).gt (.fin 1) then .num (.fin 1)
  else value

/-! ## Strings: `ToString`, `parseInt`, `parseFloat` -/

/-- The abstract operation `ToString` on an attribute value: a string, or `null`
(here `none`), which reads "null". -/
def jsToString : Option String → String
  | none => "null"
  | some s => s

/-- Truthiness of an attribute value: `null` and the empty string are falsy. -/
def truthyAttr : Option String → Bool
  | none => false
  | some s => s != ""

/-- The white space and line terminators that `parseInt` and `parseFloat` skip. -/
def isStrWhiteSpaceChar (c : Char) : Bool :=
  c.toNat ∈ [0x09, 0x0A, 0x0B, 0x0C, 0x0D, 0x20, 0xA0, 0x1680, 0x2000, 0x2001, 0x2002,
    0x2003, 0x2004, 0x2005, 0x2006, 0x2007, 0x2008, 0x2009, 0x200A, 0x2028, 0x2029, 0x202F,
    0x205F, 0x3000, 0xFEFF]

/-- A decimal digit `0` to `9`. -/
def isDecimalDigit (c : Char) : Bool :=
  48 ≤ c.toNat && c.toNat ≤ 57

/-- The value of a run of decimal digits. -/
def digitsValue (ds : List Char) : Nat :=
  ds.foldl (fun acc c => 10 * acc + (c.toNat - 48)) 0

/-- Strips one leading sign: whether it was `-`, and the rest. -/
def takeSign : List Char → Bool × List Char
  | '-' :: t => (true, t)
  | '+' :: t => (false, t)
  | s => (false, s)

/-- The integer that `parseInt(value, 10)` reads, `none` when it reads none: leading white
space is skipped, a sign is taken, then the longest run of decimal digits. -/
def parseIntDigits (value : Option String) : Option Int :=
  let s := (jsToString value).toList.dropWhile isStrWhiteSpaceChar
  let z := (takeSign s).2.takeWhile isDecimalDigit
  if z.isEmpty then none
  else if (takeSign s).1 then some (-(digitsValue z : Int))
  else some (digitsValue z : Int)

/-- The call `parseInt(value, 10)`. -/
def parseInt10 (value : Option String) : JSNum :=
  match parseIntDigits value with
  | none => .nan
  | some n => .fin (n : ℚ)

/-- The exponent part `e`, sign, digits at the head of `s`, 0 when there is none. -/
def exponentValue : List Char → Int
  | c :: t =>
    if c = 'e' ∨ c = 'E' then
      let ds := (takeSign t).2.takeWhile isDecimalDigit
      if ds.isEmpty then 0
      else if (takeSign t).1 then -(digitsValue ds : Int)
      else (digitsValue ds : Int)
    else 0
  | [] => 0

/-- The digits after a decimal point at the head of `s`, and what follows them. -/
def takeFraction : List Char → List Char × List Char
  | '.' :: t => (t.takeWhile isDecimalDigit, t.dropWhile isDecimalDigit)
  | s => ([], s)

/-- What `parseFloat` reads at the head of a string: an infinity, or a decimal literal
given by its sign, the value of its integer digits, the value and the number of its
fraction digits, and its exponent. -/
inductive FloatLiteral where
  | infinity (negative : Bool) : FloatLiteral
  | decimal (negative : Bool) (intPart fracPart fracLength : Nat) (exponent : Int) : FloatLiteral
  deriving DecidableEq

/-- The longest prefix of the trimmed string that is a decimal literal (sign, `Infinity`
or digits with an optional fraction and exponent), `none` when there is no such prefix. -/
def scanFloat (value : Option String) : Option FloatLiteral :=
  let s := (jsToString value).toList.dropWhile isStrWhiteSpaceChar
  let negative := (takeSign s).1
  let body := (takeSign s).2
  if "Infinity".toList.isPrefixOf body then some (.infinity negative)
  else
    let intDigits := body.takeWhile isDecimalDigit
    let fraction := takeFraction (body.dropWhile isDecimalDigit)
    if intDigits.isEmpty && fraction.1.isEmpty then none
    else some (.decimal negative (digitsValue intDigits) (digitsValue fraction.1)
      fraction.1.length (exponentValue fraction.2))

/-- The call `parseFloat(value)`: leading white space is skipped and the longest prefix
that is a decimal literal gives the number; `NaN` when there is no such prefix. -/
def parseFloat (value : Option String) : JSNum :=
  match scanFloat value with
  | none => .nan
  | some (.infinity negative) => if negative then .negInf else .posInf
  | some (.decimal negative intPart fracPart fracLength exponent) =>
    let mantissa : ℚ := (intPart : ℚ) + (fracPart : ℚ) / (10 : ℚ) ^ fracLength
    let magnitude : ℚ := mantissa * (10 : ℚ) ^ exponent
    if negative then .fin (-magnitude) else .fin magnitude

/-! ## The host: the canvas, its 2D context, the window -/

/-- The text settings of the 2D context that `fillText` reads. -/
structure TextStyle where
  fillStyle : String
  font : String
  textAlign : String
  textBaseline : String

/-- The host operations the components call.  A surface is the list of the bytes it
holds; each drawing operation maps the surface to the surface it leaves. -/
structure Host where
  devicePixelRatio : JSNum
  numberToString : JSNum → String
  rectWidth : JSNum
  rectHeight : JSNum
  fillRect : String → JSNum → JSNum → List Nat → List Nat
  clearRect : JSNum → JSNum → List Nat → List Nat
  drawImage : JSNum → JSNum → List Nat → List Nat
  fillText : TextStyle → String → JSNum → JSNum → List Nat → List Nat
  getImageData : JSNum → JSNum → List Nat → ImageData
  putImageData : ImageData → List Nat → List Nat

/-- The canvas of a component: whether a 2D context was obtained, the values assigned to
`canvas.width` and `canvas.height`, and the bytes on the surface. -/
structure Canvas where
  hasCtx : Bool
  width : JSNum
  height : JSNum
  pixels : List Nat

/-- The expression `window.devicePixelRatio || 1`. -/
def dprOrOne (host : Host) : JSNum :=
  if host.devicePixelRatio.truthy then host.devicePixelRatio else .fin 1

/-! ## `src/pixlated-bg.js` -/

/-- The element `<pixlated-bg>`: its attributes and its canvas. -/
structure PixlatedBg where
  color : Option String
  intensity : Option String
  width : Option String
  height : Option String
  canvas : Canvas

/-- The method `PixlatedBg.updateCanvasSize`: the values it assigns to `canvas.width`
and `canvas.height`.  The CSS size and the call `ctx.scale(dpr, dpr)`, which follow the
two assignments and use the same numbers, are not part of the state. -/
def PixlatedBg.updateCanvasSize (host : Host) (self : PixlatedBg) : PixlatedBg :=
  let width := self.width
  let height := self.height
  if truthyAttr width && truthyAttr height then
    let w := parseInt10 width
    let h := parseInt10 height
    let dpr := dprOrOne host
    { self with canvas := { self.canvas with width := w.mul dpr, height := h.mul dpr } }
  else
    let dpr := dprOrOne host
    { self with canvas := { self.canvas with
        width := host.rectWidth.mul dpr, height := host.rectHeight.mul dpr } }

/-- The method `PixlatedBg.drawGrainyBackground`: the element after the draw, and the
number of random draws made so far. -/
def PixlatedBg.drawGrainyBackground (host : Host) (rand : Nat → ℚ) (k : Nat)
    (self : PixlatedBg) : PixlatedBg × Nat :=
  if !self.canvas.hasCtx then (self, k)
  else
    let color := if truthyAttr self.color then jsToString self.color else "#09090b"
    let rawIntensity := parseFloat self.intensity
    let intensity := clampIntensity (.num rawIntensity) (.num (.fin (1 / 10)))
    let canvasWidth := self.canvas.width
    let canvasHeight := self.canvas.height
    let filled := host.fillRect color canvasWidth canvasHeight self.canvas.pixels
    if (toNumber intensity).gt (.fin 0) then
      let imageData := host.getImageData canvasWidth canvasHeight filled
      let noisyData := applyNoise rand k imageData (toNumber intensity)
      ({ self with canvas := { self.canvas with
          pixels := host.putImageData noisyData.1 filled } }, noisyData.2)
    else ({ self with canvas := { self.canvas with pixels := filled } }, k)

/-! ## `src/pixlated.js` -/

/-- The element `<pixlated-image>`: the attribute `intensity`, the state of its image
(`img.complete`, `img.naturalWidth`), its error message and its canvas. -/
structure PixlatedImage where
  intensity : Option String
  imgComplete : Bool
  imgNaturalWidth : Nat
  errorMessage : String
  canvas : Canvas

/-- The method `PixlatedImage.drawPlaceholder`. -/
def PixlatedImage.drawPlaceholder (host : Host) (self : PixlatedImage) : PixlatedImage :=
  if !self.canvas.hasCtx then self
  else
    let w := self.canvas.width
    let h := self.canvas.height
    let cleared := host.clearRect w h self.canvas.pixels
    let filled := host.fillRect "#f0f0f0" w h cleared
    let centerX := w.mul (.fin (1 / 2))
    let centerY := h.mul (.fin (1 / 2))
    let drawn :=
      if self.errorMessage != "" then
        let t1 := host.fillText ⟨"#d32f2f", "16px Arial", "center", "middle"⟩
          "\u00e2\u0161\u00a0 Error" centerX (centerY.sub (.fin 20)) filled
        host.fillText ⟨"#666", "14px Arial", "center", "middle"⟩
          self.errorMessage centerX (centerY.add (.fin 10)) t1
      else
        let t1 := host.fillText ⟨"#666", "16px Arial", "center", "middle"⟩
          "No Image" centerX (centerY.sub (.fin 10)) filled
        host.fillText ⟨"#999", "12px Arial", "center", "middle"⟩
          "src attribute required" centerX (centerY.add (.fin 15)) t1
    { self with canvas := { self.canvas with pixels := drawn } }

/-- The method `PixlatedImage.drawGrainyImage`: the element after the draw, and the
number of random draws made so far. -/
def PixlatedImage.drawGrainyImage (host : Host) (rand : Nat → ℚ) (k : Nat)
    (self : PixlatedImage) : PixlatedImage × Nat :=
  if !self.canvas.hasCtx then (self, k)
  else if !self.imgComplete || self.imgNaturalWidth = 0 then
    (PixlatedImage.drawPlaceholder host self, k)
  else
    let rawIntensity := parseFloat self.intensity
    let intensity := clampIntensity (.num rawIntensity) (.num (.fin (1 / 10)))
    let canvasWidth := self.canvas.width
    let canvasHeight := self.canvas.height
    let cleared := host.clearRect canvasWidth canvasHeight self.canvas.pixels
    let drawn := host.drawImage canvasWidth canvasHeight cleared
    if (toNumber intensity).gt (.fin 0) then
      let imageData := host.getImageData canvasWidth canvasHeight drawn
      let noisyData := applyNoise rand k imageData (toNumber intensity)
      ({ self with canvas := { self.canvas with
          pixels := host.putImageData noisyData.1 drawn } }, noisyData.2)
    else ({ self with canvas := { self.canvas with pixels := drawn } }, k)

/-! ## Names for the parts of the loop body, used in the proofs -/

/-- The noise sample of the draw number `m`, as line 6 of `noise.js` computes it. -/
def noiseSample (rand : Nat → ℚ) (c : JSNum) (m : Nat) : JSNum :=
  (((JSNum.fin (rand m)).sub (.fin (1 / 2))).mul (.fin 255)).mul c

/-- The byte that one of the lines 7 to 9 of `noise.js` stores over the byte `b`. -/
def storedByte (noise : JSNum) (b : Nat) : Nat :=
  toUint8Clamp (Math.max (.fin 0) (Math.min (.fin 255) ((JSNum.fin (b : ℚ)).add noise)))

/-- The three stores of one iteration of the loop, at the pixel starting at `i`. -/
def pixelStep (data : List Nat) (i : Nat) (noise : JSNum) : List Nat :=
  let data1 := writeByte data i
    (Math.max (.fin 0) (Math.min (.fin 255) ((readByte data i).add noise)))
  let data2 := writeByte data1 (i + 1)
    (Math.max (.fin 0) (Math.min (.fin 255) ((readByte data1 (i + 1)).add noise)))
  writeByte data2 (i + 2)
    (Math.max (.fin 0) (Math.min (.fin 255) ((readByte data2 (i + 2)).add noise)))

/-! ## A sample host -/

/-- A host that draws nothing, on a screen of pixel ratio 2: every drawing operation
leaves the surface as it is. -/
def blankHost : Host where
  devicePixelRatio := .fin 2
  numberToString := fun _ => ""
  rectWidth := .fin 300
  rectHeight := .fin 150
  fillRect := fun _ _ _ p => p
  clearRect := fun _ _ p => p
  drawImage := fun _ _ p => p
  fillText := fun _ _ _ _ p => p
  getImageData := fun _ _ p => ⟨1, 1, p⟩
  putImageData := fun d _ => d.data

/-! ## Lemmas on numbers and on the byte store -/

@[simp] theorem JSNum.sub_fin (a b : ℚ) : (JSNum.fin a).sub (.fin b) = .fin (a - b) := by
  simp [JSNum.sub, JSNum.neg, JSNum.add, sub_eq_add_neg]

@[simp] theorem JSNum.mul_fin (a b : ℚ) : (JSNum.fin a).mul (.fin b) = .fin (a * b) := rfl

@[simp] theorem JSNum.add_fin (a b : ℚ) : (JSNum.fin a).add (.fin b) = .fin (a + b) := rfl

@[simp] theorem Math.max_fin (a b : ℚ) : Math.max (.fin a) (.fin b) = .fin (Max.max a b) := rfl

@[simp] theorem Math.min_fin (a b : ℚ) : Math.min (.fin a) (.fin b) = .fin (Min.min a b) := rfl

theorem noiseSample_fin (rand : Nat → ℚ) (c : ℚ) (m : Nat) :
    noiseSample rand (.fin c) m = .fin ((rand m - 1 / 2) * 255 * c) := by
  simp [noiseSample]

theorem storedByte_fin (s : ℚ) (b : Nat) :
    storedByte (.fin s) b = toUint8Clamp (.fin (max 0 (min 255 ((b : ℚ) + s)))) := rfl

theorem toUint8Clamp_natCast (n : Nat) (h : n ≤ 255) : toUint8Clamp (.fin (n : ℚ)) = n := by
  have hn : (n : ℚ) ≤ 255 := by exact_mod_cast h
  have h0 : (0 : ℚ) ≤ (n : ℚ) := Nat.cast_nonneg n
  simp only [toUint8Clamp, max_eq_left h0, min_eq_left hn, Int.floor_natCast]
  have : ((n : ℤ) : ℚ) = (n : ℚ) := by push_cast; rfl
  rw [if_pos (by rw [this]; linarith)]
  simp

theorem length_writeByte (data : List Nat) (i : Nat) (v : JSNum) :
    (writeByte data i v).length = data.length := by
  simp [writeByte]

theorem getElem?_writeByte_readByte (data : List Nat) (j m : Nat) (noise : JSNum) :
    (writeByte data j
      (Math.max (.fin 0) (Math.min (.fin 255) ((readByte data j).add noise))))[m]? =
      if m = j then data[j]?.map (storedByte noise) else data[m]? := by
  unfold writeByte readByte
  by_cases hj : j < data.length
  · rw [List.getElem?_eq_getElem hj]
    by_cases hm : m = j
    · subst hm
      simp [storedByte, hj]
    · simp [hm, List.getElem?_set, Ne.symm hm]
  · rw [List.set_eq_of_length_le (by omega)]
    by_cases hm : m = j
    · subst hm
      simp [List.getElem?_eq_none (show data.length ≤ m by omega)]
    · simp [hm]

/-! ## The loop of `applyNoise` -/

theorem applyNoiseLoop_step (rand : Nat → ℚ) (c : JSNum) (i : Nat) (data : List Nat) (k : Nat)
    (hi : i < data.length) :
    applyNoiseLoop rand c i data k =
      applyNoiseLoop rand c (i + 4) (pixelStep data i (noiseSample rand c k)) (k + 1) := by
  rw [applyNoiseLoop, if_pos hi]
  rfl

theorem applyNoiseLoop_done (rand : Nat → ℚ) (c : JSNum) (i : Nat) (data : List Nat) (k : Nat)
    (hi : ¬ i < data.length) : applyNoiseLoop rand c i data k = (data, k) := by
  rw [applyNoiseLoop, if_neg hi]

theorem length_pixelStep (data : List Nat) (i : Nat) (noise : JSNum) :
    (pixelStep data i noise).length = data.length := by
  simp [pixelStep, length_writeByte]

theorem getElem?_pixelStep (data : List Nat) (i j : Nat) (noise : JSNum) :
    (pixelStep data i noise)[j]? =
      if i ≤ j ∧ j < i + 3 then data[j]?.map (storedByte noise) else data[j]? := by
  simp only [pixelStep, getElem?_writeByte_readByte]
  by_cases h0 : j = i
  · subst h0; simp
  · by_cases h1 : j = i + 1
    · subst h1; simp
    · by_cases h2 : j = i + 2
      · subst h2; simp
      · rw [if_neg h2, if_neg h1, if_neg h0, if_neg (by omega)]

/-- What the loop leaves at every index, and how many draws it makes. -/
theorem applyNoiseLoop_spec (rand : Nat → ℚ) (c : JSNum) :
    ∀ (n i : Nat) (data : List Nat) (k : Nat), data.length - i ≤ n →
      (applyNoiseLoop rand c i data k).1.length = data.length ∧
      (applyNoiseLoop rand c i data k).2 = k + (data.length - i + 3) / 4 ∧
      ∀ j, (applyNoiseLoop rand c i data k).1[j]? =
        if j < i ∨ (j - i) % 4 = 3 then data[j]?
        else data[j]?.map (storedByte (noiseSample rand c (k + (j - i) / 4))) := by
  intro n
  induction n with
  | zero =>
    intro i data k h
    rw [applyNoiseLoop_done _ _ _ _ _ (by omega)]
    dsimp only
    refine ⟨rfl, by omega, ?_⟩
    intro j
    by_cases hj : j < i ∨ (j - i) % 4 = 3
    · simp [hj]
    · rw [if_neg hj, List.getElem?_eq_none (by omega)]
      rfl
  | succ n ih =>
    intro i data k h
    by_cases hi : i < data.length
    · rw [applyNoiseLoop_step _ _ _ _ _ hi]
      obtain ⟨h1, h2, h3⟩ := ih (i + 4) (pixelStep data i (noiseSample rand c k)) (k + 1)
        (by rw [length_pixelStep]; omega)
      rw [length_pixelStep] at h1 h2
      refine ⟨h1, by rw [h2]; omega, ?_⟩
      intro j
      rw [h3 j, getElem?_pixelStep]
      by_cases ha : j < i
      · rw [if_pos (by omega), if_neg (by omega), if_pos (Or.inl ha)]
      · by_cases hb : j < i + 3
        · have e : (j - i) / 4 = 0 := by omega
          rw [if_pos (by omega), if_pos (by omega), if_neg (by omega), e]
          rfl
        · by_cases hc : j = i + 3
          · rw [if_pos (by omega), if_neg (by omega), if_pos (by omega)]
          · have e : k + 1 + (j - (i + 4)) / 4 = k + (j - i) / 4 := by omega
            have e2 : (j - (i + 4)) % 4 = 3 ↔ (j - i) % 4 = 3 := by omega
            by_cases hd : (j - i) % 4 = 3
            · rw [if_pos (Or.inr (e2.mpr hd)), if_neg (by omega), if_pos (Or.inr hd)]
            · rw [if_neg (by omega), if_neg (by omega), if_neg (by omega), e]
    · rw [applyNoiseLoop_done _ _ _ _ _ hi]
      dsimp only
      refine ⟨rfl, by omega, ?_⟩
      intro j
      by_cases hj : j < i ∨ (j - i) % 4 = 3
      · simp [hj]
      · rw [if_neg hj, List.getElem?_eq_none (by omega)]
        rfl

theorem applyNoise_length (rand : Nat → ℚ) (k : Nat) (img : ImageData) (v : JSNum) :
    (applyNoise rand k img v).1.data.length = img.data.length :=
  (applyNoiseLoop_spec rand _ _ 0 img.data k (le_refl _)).1

theorem applyNoise_getElem? (rand : Nat → ℚ) (k : Nat) (img : ImageData) (v : JSNum) (j : Nat) :
    (applyNoise rand k img v).1.data[j]? =
      if j % 4 = 3 then img.data[j]?
      else img.data[j]?.map (storedByte
        (noiseSample rand (Math.max (.fin 0) (Math.min (.fin 1) v)) (k + j / 4))) := by
  have h := (applyNoiseLoop_spec rand (Math.max (.fin 0) (Math.min (.fin 1) v)) _ 0 img.data k
    (le_refl _)).2.2 j
  simpa [applyNoise] using h

/-- A value halfway between `m` and `m + 1` is stored as the even one of the two. -/
theorem toUint8Clamp_tie (m : Nat) (hm : m < 255) :
    toUint8Clamp (.fin ((m : ℚ) + 1 / 2)) = if m % 2 = 0 then m else m + 1 := by
  have hm' : (m : ℚ) + 1 / 2 ≤ 255 := by
    have : (m : ℚ) + 1 ≤ 255 := by exact_mod_cast hm
    linarith
  have h0 : (0 : ℚ) ≤ (m : ℚ) + 1 / 2 := by
    have : (0 : ℚ) ≤ (m : ℚ) := Nat.cast_nonneg m
    linarith
  have hfl : ⌊(m : ℚ) + 1 / 2⌋ = (m : ℤ) := by
    rw [Int.floor_eq_iff]
    constructor
    · push_cast; linarith
    · push_cast; linarith
  simp only [toUint8Clamp, max_eq_left h0, min_eq_left hm', hfl]
  have e : (((m : ℤ) : ℚ)) = (m : ℚ) := by push_cast; rfl
  rw [e, if_neg (lt_irrefl _), if_neg (lt_irrefl _)]
  by_cases hp : m % 2 = 0
  · rw [if_pos (by omega), if_pos hp]; simp
  · rw [if_neg (by omega), if_neg hp]
    have : ((m : ℤ) + 1).toNat = m + 1 := by omega
    exact this

theorem storedByte_zero (b : Nat) (h : b ≤ 255) : storedByte (.fin 0) b = b := by
  have hb : (b : ℚ) ≤ 255 := by exact_mod_cast h
  have h0 : (0 : ℚ) ≤ (b : ℚ) := Nat.cast_nonneg b
  rw [storedByte_fin, add_zero, min_eq_right hb, max_eq_right h0]
  exact toUint8Clamp_natCast b h

theorem storedByte_tie (s : ℚ) (a m : Nat) (hm : m < 255) (h : (a : ℚ) + s = (m : ℚ) + 1 / 2) :
    storedByte (.fin s) a = if m % 2 = 0 then m else m + 1 := by
  have hm' : (m : ℚ) + 1 ≤ 255 := by exact_mod_cast hm
  have hm0 : (0 : ℚ) ≤ (m : ℚ) := Nat.cast_nonneg m
  rw [storedByte_fin, h, min_eq_right (by linarith), max_eq_right (by linarith)]
  exact toUint8Clamp_tie m hm

theorem applyNoise_zero_data (rand : Nat → ℚ) (k : Nat) (img : ImageData) (v : JSNum)
    (hv : Math.max (.fin 0) (Math.min (.fin 1) v) = .fin 0)
    (hbytes : ∀ b ∈ img.data, b ≤ 255) : (applyNoise rand k img v).1 = img := by
  have hd : (applyNoise rand k img v).1.data = img.data := by
    apply List.ext_getElem?
    intro j
    rw [applyNoise_getElem?, hv]
    split_ifs with h3
    · rfl
    · cases hj : img.data[j]? with
      | none => rfl
      | some b =>
        have hb : b ≤ 255 := hbytes b (List.getElem?_mem hj)
        simp [noiseSample_fin, storedByte_zero b hb]
  cases img with
  | mk w h data =>
    simp only [applyNoise] at hd ⊢
    simp only [hd]

/-- The result of `applyNoise` on a buffer of one pixel. -/
theorem applyNoise_one_pixel (rand : Nat → ℚ) (k w h r g b a : Nat) (v : JSNum) :
    (applyNoise rand k ⟨w, h, [r, g, b, a]⟩ v).1.data =
      [storedByte (noiseSample rand (Math.max (.fin 0) (Math.min (.fin 1) v)) k) r,
       storedByte (noiseSample rand (Math.max (.fin 0) (Math.min (.fin 1) v)) k) g,
       storedByte (noiseSample rand (Math.max (.fin 0) (Math.min (.fin 1) v)) k) b, a] := by
  simp only [applyNoise]
  rw [applyNoiseLoop_step _ _ _ _ _ (by simp), applyNoiseLoop_done _ _ _ _ _
    (by simp [length_pixelStep])]
  simp [pixelStep, writeByte, readByte, storedByte]

/-- The buffer (100, 100, 100, 255) with every draw 1 and intensity 1: each colour byte
receives 227.5, which is stored as the even neighbour 228. -/
theorem applyNoise_draw_one_data (k : Nat) :
    (applyNoise (fun _ => 1) k ⟨1, 1, [100, 100, 100, 255]⟩ (.fin 1)).1.data =
      [228, 228, 228, 255] := by
  rw [applyNoise_one_pixel]
  simp only [Math.min_fin, Math.max_fin, noiseSample_fin]
  have e : ((1 : ℚ) - 1 / 2) * 255 * max 0 (min 1 1) = 255 / 2 := by norm_num
  rw [e, storedByte_tie (255 / 2) 100 227 (by norm_num) (by norm_num)]
  rfl

/-! ## Lemmas on the attributes -/

theorem parseFloat_zero : parseFloat (some "0") = .fin 0 := by
  have h : scanFloat (some "0") = some (.decimal false 0 0 0 0) := by decide
  simp [parseFloat, h]

theorem effective_intensity_zero :
    clampIntensity (.num (parseFloat (some "0"))) (.num (.fin (1 / 10))) = .num (.fin 0) := by
  rw [parseFloat_zero]
  simp [clampIntensity, toNumber, JSNum.isNaN, JSNum.lt, JSNum.gt]

/-- With both attributes present and non-empty, `updateCanvasSize` assigns what
`parseInt` reads, times the pixel ratio, whatever `parseInt` reads. -/
theorem updateCanvasSize_explicit (host : Host) (self : PixlatedBg)
    (hw : truthyAttr self.width = true) (hh : truthyAttr self.height = true) :
    (self.updateCanvasSize host).canvas.width = (parseInt10 self.width).mul (dprOrOne host) ∧
      (self.updateCanvasSize host).canvas.height =
        (parseInt10 self.height).mul (dprOrOne host) := by
  simp [PixlatedBg.updateCanvasSize, hw, hh]

/-- With an attribute absent or empty, `updateCanvasSize` assigns the measured box times
the pixel ratio. -/
theorem updateCanvasSize_measured (host : Host) (self : PixlatedBg)
    (h : truthyAttr self.width = false ∨ truthyAttr self.height = false) :
    (self.updateCanvasSize host).canvas.width = host.rectWidth.mul (dprOrOne host) ∧
      (self.updateCanvasSize host).canvas.height = host.rectHeight.mul (dprOrOne host) := by
  rcases h with h | h <;> simp [PixlatedBg.updateCanvasSize, h]

/-! ## The properties of the specification -/

/-- C2. With intensity zero, or negative (`-∞` included), `applyNoise` returns the buffer
it was given, byte for byte, whatever the draws. -/
theorem applyNoise_zero_intensity (rand : Nat → ℚ) (k : Nat) (img : ImageData) (x : ℚ)
    (hx : x ≤ 0) (hbytes : ∀ b ∈ img.data, b ≤ 255) :
    (applyNoise rand k img (.fin x)).1 = img ∧
      (applyNoise rand k img (.fin 0)).1 = img ∧
      (applyNoise rand k img .negInf).1 = img := by
  refine ⟨applyNoise_zero_data rand k img _ ?_ hbytes,
    applyNoise_zero_data rand k img _ ?_ hbytes, applyNoise_zero_data rand k img _ rfl hbytes⟩
  · simp only [Math.min_fin, Math.max_fin]
    rw [min_eq_right (by linarith), max_eq_left hx]
  · simp

/-- C2, an instance: the pixel (10, 20, 30, 255) is returned as it is with the
intensities -2, 0 and `-∞`. -/
theorem applyNoise_zero_intensity_witness :
    (applyNoise (fun _ => 3 / 4) 0 ⟨1, 1, [10, 20, 30, 255]⟩ (.fin (-2))).1
        = ⟨1, 1, [10, 20, 30, 255]⟩ ∧
      (applyNoise (fun _ => 3 / 4) 0 ⟨1, 1, [10, 20, 30, 255]⟩ (.fin 0)).1
        = ⟨1, 1, [10, 20, 30, 255]⟩ ∧
      (applyNoise (fun _ => 3 / 4) 0 ⟨1, 1, [10, 20, 30, 255]⟩ .negInf).1
        = ⟨1, 1, [10, 20, 30, 255]⟩ :=
  applyNoise_zero_intensity (fun _ => 3 / 4) 0 ⟨1, 1, [10, 20, 30, 255]⟩ (-2) (by norm_num)
    (by decide)

/-- C3. For every intensity, `NaN` and the infinities included, and all draws,
`applyNoise` leaves the alpha byte of every pixel (index `4 * p + 3`) as it was and keeps
the length, the width and the height, so that length = width * height * 4 still holds. -/
theorem applyNoise_alpha_and_length (rand : Nat → ℚ) (k : Nat) (img : ImageData) (v : JSNum)
    (hlen : img.data.length = img.width * img.height * 4) :
    (∀ p, (applyNoise rand k img v).1.data[4 * p + 3]? = img.data[4 * p + 3]?) ∧
      (applyNoise rand k img v).1.data.length = img.data.length ∧
      (applyNoise rand k img v).1.width = img.width ∧
      (applyNoise rand k img v).1.height = img.height ∧
      (applyNoise rand k img v).1.data.length =
        (applyNoise rand k img v).1.width * (applyNoise rand k img v).1.height * 4 := by
  refine ⟨?_, applyNoise_length rand k img v, rfl, rfl, ?_⟩
  · intro p
    rw [applyNoise_getElem?, if_pos (by omega)]
  · rw [applyNoise_length, hlen]
    rfl

/-- C3, an instance: two pixels and the intensity `NaN`; the first alpha byte is kept and
the length stays 8. -/
theorem applyNoise_alpha_and_length_witness :
    (applyNoise (fun _ => 3 / 4) 0 ⟨1, 2, [10, 20, 30, 255, 1, 2, 3, 4]⟩ .nan).1.data[4 * 0 + 3]?
        = [10, 20, 30, 255, 1, 2, 3, 4][4 * 0 + 3]? ∧
      (applyNoise (fun _ => 3 / 4) 0 ⟨1, 2, [10, 20, 30, 255, 1, 2, 3, 4]⟩ .nan).1.data.length
        = [10, 20, 30, 255, 1, 2, 3, 4].length :=
  ⟨(applyNoise_alpha_and_length (fun _ => 3 / 4) 0 ⟨1, 2, [10, 20, 30, 255, 1, 2, 3, 4]⟩ .nan
      (by decide)).1 0,
    (applyNoise_alpha_and_length (fun _ => 3 / 4) 0 ⟨1, 2, [10, 20, 30, 255, 1, 2, 3, 4]⟩ .nan
      (by decide)).2.1⟩

/-- C5 (as amended). With every draw 1.0 and intensity 1.0, `applyNoise` maps the pixel
(100, 100, 100, 255) to (228, 228, 228, 255): each colour byte receives 227.5, which the
8-bit store rounds to the even neighbour 228. -/
theorem applyNoise_draw_one (k : Nat) :
    (applyNoise (fun _ => 1) k ⟨1, 1, [100, 100, 100, 255]⟩ (.fin 1)).1.data =
      [228, 228, 228, 255] :=
  applyNoise_draw_one_data k

/-- C5 (as stated) fails: the output pixel is not (227, 227, 227, 255). -/
theorem applyNoise_draw_one_not_227 :
    (applyNoise (fun _ => 1) 0 ⟨1, 1, [100, 100, 100, 255]⟩ (.fin 1)).1.data ≠
      [227, 227, 227, 255] := by
  rw [applyNoise_draw_one_data]
  decide

/-- C6. For every real `x` and every default `d`, `clampIntensity(x, d)` is 0 when
`x < 0`, 1 when `x > 1` and `x` otherwise; `-∞` gives 0 and `+∞` gives 1; the result lies
in `[0, 1]` and is the same for any other default `d'`; and -5, 5, 0.5 give 0, 1, 0.5. -/
theorem clampIntensity_clamps (x : ℚ) (d d' : JSVal) :
    clampIntensity (.num (.fin x)) d =
        .num (.fin (if x < 0 then 0 else if 1 < x then 1 else x)) ∧
      (0 : ℚ) ≤ (if x < 0 then 0 else if 1 < x then 1 else x) ∧
      (if x < 0 then 0 else if 1 < x then 1 else x) ≤ (1 : ℚ) ∧
      clampIntensity (.num .negInf) d = .num (.fin 0) ∧
      clampIntensity (.num .posInf) d = .num (.fin 1) ∧
      clampIntensity (.num (.fin x)) d = clampIntensity (.num (.fin x)) d' ∧
      clampIntensity (.num .negInf) d = clampIntensity (.num .negInf) d' ∧
      clampIntensity (.num .posInf) d = clampIntensity (.num .posInf) d' ∧
      clampIntensity (.num (.fin (-5))) d = .num (.fin 0) ∧
      clampIntensity (.num (.fin 5)) d = .num (.fin 1) ∧
      clampIntensity (.num (.fin (1 / 2))) d = .num (.fin (1 / 2)) := by
  have key : ∀ (y : ℚ) (e : JSVal), clampIntensity (.num (.fin y)) e =
      .num (.fin (if y < 0 then 0 else if 1 < y then 1 else y)) := by
    intro y e
    simp only [clampIntensity, toNumber, JSNum.isNaN, JSNum.lt, JSNum.gt]
    by_cases h0 : y < 0
    · simp [h0]
    · by_cases h1 : 1 < y
      · simp [h0, h1]
      · simp [h0, h1]
  have hneg : ∀ e : JSVal, clampIntensity (.num .negInf) e = .num (.fin 0) := by
    intro e
    simp [clampIntensity, toNumber, JSNum.isNaN, JSNum.lt]
  have hpos : ∀ e : JSVal, clampIntensity (.num .posInf) e = .num (.fin 1) := by
    intro e
    simp [clampIntensity, toNumber, JSNum.isNaN, JSNum.lt, JSNum.gt]
  refine ⟨key x d, ?_, ?_, hneg d, hpos d, ?_, ?_, ?_, ?_, ?_, ?_⟩
  · split_ifs <;> linarith
  · split_ifs <;> linarith
  · rw [key x d, key x d']
  · rw [hneg d, hneg d']
  · rw [hpos d, hpos d']
  · rw [key]; norm_num
  · rw [key]; norm_num
  · rw [key]; norm_num

/-- C7. When the value is `null`, `undefined` or `NaN`, `clampIntensity(v, d)` returns
the default `d` that was passed, as it is and without clamping it, and returns 0.1 when
no default is passed (the argument is then `undefined`). -/
theorem clampIntensity_default (v d : JSVal)
    (hv : v = .null ∨ v = .undefined ∨ v = .num .nan) (hd : d ≠ .undefined) :
    clampIntensity v d = d ∧ clampIntensity v .undefined = .num (.fin (1 / 10)) := by
  rcases hv with h | h | h <;> subst h <;> constructor
  · simp [clampIntensity, hd]
  · simp [clampIntensity]
  · simp [clampIntensity, hd]
  · simp [clampIntensity]
  · simp [clampIntensity, hd, toNumber, JSNum.isNaN]
  · simp [clampIntensity, toNumber, JSNum.isNaN]

/-- C7, an instance: the value `NaN` with the default 7 gives 7, which is not clamped,
and 0.1 without a default. -/
theorem clampIntensity_default_witness :
    clampIntensity (.num .nan) (.num (.fin 7)) = .num (.fin 7) ∧
      clampIntensity (.num .nan) .undefined = .num (.fin (1 / 10)) :=
  clampIntensity_default (.num .nan) (.num (.fin 7)) (Or.inr (Or.inr rfl))
    (fun h => JSVal.noConfusion h)

/-- C9. When the attribute `intensity` is "0", the effective intensity
`clampIntensity(parseFloat("0"), 0.1)` is 0 and both components leave on the surface
exactly the base layer: `drawGrainyBackground` the filled rectangle, and
`drawGrainyImage`, when the image is loaded, the cleared surface with the image drawn
on it; no random draw is made. -/
theorem draw_with_zero_intensity (host : Host) (rand : Nat → ℚ) (k : Nat) (bg : PixlatedBg)
    (im : PixlatedImage) (hbg : bg.intensity = some "0") (hbctx : bg.canvas.hasCtx = true)
    (him : im.intensity = some "0") (hictx : im.canvas.hasCtx = true)
    (hcomplete : im.imgComplete = true) (hnatural : im.imgNaturalWidth ≠ 0) :
    clampIntensity (.num (parseFloat (some "0"))) (.num (.fin (1 / 10))) = .num (.fin 0) ∧
      (bg.drawGrainyBackground host rand k).1.canvas.pixels =
        host.fillRect (if truthyAttr bg.color then jsToString bg.color else "#09090b")
          bg.canvas.width bg.canvas.height bg.canvas.pixels ∧
      (bg.drawGrainyBackground host rand k).2 = k ∧
      (im.drawGrainyImage host rand k).1.canvas.pixels =
        host.drawImage im.canvas.width im.canvas.height
          (host.clearRect im.canvas.width im.canvas.height im.canvas.pixels) ∧
      (im.drawGrainyImage host rand k).2 = k := by
  have hgt : ((toNumber (.num (.fin 0))).gt (.fin 0)) = false := by
    simp [toNumber, JSNum.gt, JSNum.lt]
  refine ⟨effective_intensity_zero, ?_, ?_, ?_, ?_⟩
  · simp only [PixlatedBg.drawGrainyBackground, hbctx, hbg, effective_intensity_zero, hgt]
    simp
  · simp only [PixlatedBg.drawGrainyBackground, hbctx, hbg, effective_intensity_zero, hgt]
    simp
  · simp only [PixlatedImage.drawGrainyImage, hictx, him, hcomplete, effective_intensity_zero,
      hgt]
    simp [hnatural]
  · simp only [PixlatedImage.drawGrainyImage, hictx, him, hcomplete, effective_intensity_zero,
      hgt]
    simp [hnatural]

/-- C9, an instance: on the host that draws nothing, a background and a loaded image
with `intensity="0"` leave the eight bytes of the surface as they were. -/
theorem draw_with_zero_intensity_witness :
    ((PixlatedBg.mk (some "#ff0000") (some "0") none none ⟨true, .fin 2, .fin 1,
        [1, 2, 3, 255, 4, 5, 6, 255]⟩).drawGrainyBackground blankHost (fun _ => 3 / 4) 0).1.canvas.pixels
        = [1, 2, 3, 255, 4, 5, 6, 255] ∧
      ((PixlatedImage.mk (some "0") true 640 "" ⟨true, .fin 2, .fin 1,
        [1, 2, 3, 255, 4, 5, 6, 255]⟩).drawGrainyImage blankHost (fun _ => 3 / 4) 0).1.canvas.pixels
        = [1, 2, 3, 255, 4, 5, 6, 255] :=
  ⟨(draw_with_zero_intensity blankHost (fun _ => 3 / 4) 0
      (PixlatedBg.mk (some "#ff0000") (some "0") none none ⟨true, .fin 2, .fin 1,
        [1, 2, 3, 255, 4, 5, 6, 255]⟩)
      (PixlatedImage.mk (some "0") true 640 "" ⟨true, .fin 2, .fin 1,
        [1, 2, 3, 255, 4, 5, 6, 255]⟩) rfl rfl rfl rfl rfl (by decide)).2.1,
    (draw_with_zero_intensity blankHost (fun _ => 3 / 4) 0
      (PixlatedBg.mk (some "#ff0000") (some "0") none none ⟨true, .fin 2, .fin 1,
        [1, 2, 3, 255, 4, 5, 6, 255]⟩)
      (PixlatedImage.mk (some "0") true 640 "" ⟨true, .fin 2, .fin 1,
        [1, 2, 3, 255, 4, 5, 6, 255]⟩) rfl rfl rfl rfl rfl (by decide)).2.2.2.1⟩

/-- C10, the code at the failing inputs: with `width="abc"` and `height="100"` the method
`updateCanvasSize` of the background assigns `NaN` to `canvas.width`, whatever the pixel
ratio and the measured box; with a pixel ratio of 1, `width="-10"` assigns -10 and
`height="0"` assigns 0.  The measured box is not used in any of these cases. -/
theorem updateCanvasSize_unparseable (host : Host) (canvas : Canvas) :
    (PixlatedBg.updateCanvasSize host ⟨none, none, some "abc", some "100", canvas⟩).canvas.width
        = .nan ∧
      (PixlatedBg.updateCanvasSize { host with devicePixelRatio := .fin 1 }
        ⟨none, none, some "-10", some "100", canvas⟩).canvas.width = .fin (-10) ∧
      (PixlatedBg.updateCanvasSize { host with devicePixelRatio := .fin 1 }
        ⟨none, none, some "100", some "0", canvas⟩).canvas.height = .fin 0 := by
  have habc : parseIntDigits (some "abc") = none := by decide
  have hneg : parseIntDigits (some "-10") = some (-10) := by decide
  have hzero : parseIntDigits (some "0") = some 0 := by decide
  have ht1 : truthyAttr (some "abc") = true := by decide
  have ht2 : truthyAttr (some "100") = true := by decide
  have ht3 : truthyAttr (some "-10") = true := by decide
  have ht4 : truthyAttr (some "0") = true := by decide
  refine ⟨?_, ?_, ?_⟩
  · simp [PixlatedBg.updateCanvasSize, ht1, ht2, parseInt10, habc, JSNum.mul]
  · simp [PixlatedBg.updateCanvasSize, ht3, ht2, parseInt10, hneg, dprOrOne, JSNum.truthy]
  · simp [PixlatedBg.updateCanvasSize, ht4, ht2, parseInt10, hzero, dprOrOne, JSNum.truthy]

end Pixlated
